import Mathlib

/-!
Shallow embedding of the poidh-cron price-update job.

The repository contains two variants of the same job:
* `src/jobs/updatePrices.ts` — the schema-qualified variant: it resolves a
  deployment id, ensures a `live_query_tables` bookkeeping table in that
  schema, updates a `Bounties` table keyed by `id`, and uses a 10 percent
  change threshold;
* the sidecar variant — it reads a fixed `public."BountiesExtra"` table
  joined with `public."Bounties"`, keys updates by `(bounty_id, chain_id)`,
  and uses a 5 percent threshold.

JavaScript numbers are modelled as exact rationals (`ℚ`).  The database is a
record of committed state; a run is interpreted against an `Oracle` that
fixes the outcome of every external call (queries, price fetches,
transaction control), and produces the run outcome, the final committed
database and a trace of the operations issued.  Transaction semantics:
statements act on a pending copy of the state, which becomes committed only
when `COMMIT` succeeds.
-/

/-- Error values of the job.  External failures (database / network
rejections) carry an identity tag so that error propagation can be tracked;
the remaining constructors are the errors thrown by the job's own code. -/
inductive Err where
  | external (tag : ℕ)
  | prevPriceZero
  | fetchExhausted
  | rowsUndefined
  | noDbUrl
deriving DecidableEq

/-- One bounty row: `id`, `chain_id`, the raw 18-decimal base-unit `amount`
(an integer), and the mutable derived `amount_sort` column. -/
structure Bounty where
  id : ℕ
  chainId : ℕ
  amount : ℕ
  amountSort : Option ℚ
deriving DecidableEq

/-- A price snapshot: the `eth_usd` and `degen_usd` columns of one row of
`public."Price"` (source type `LatestPrice`). -/
structure LatestPrice where
  ethUsd : ℚ
  degenUsd : ℚ
deriving DecidableEq

/-- Committed database state: `Price` rows in insertion order (so the
"latest" row of `ORDER BY id DESC LIMIT 1` is the last element), the bounty
rows, and whether the live-query bookkeeping table exists. -/
structure DB where
  prices : List LatestPrice
  bounties : List Bounty
  liveTable : Bool
deriving DecidableEq

/-- Per-variant configuration: the percent-change threshold and whether the
variant resolves a dynamic schema (deployment id fetch, live-query table
ensure step, single-column update key). -/
structure Variant where
  threshold : ℚ
  dynamicSchema : Bool
deriving DecidableEq

/-- The `src/jobs/updatePrices.ts` variant: threshold 10, dynamic schema. -/
def schemaVariant : Variant := ⟨10, true⟩

/-- The sidecar (`BountiesExtra`) variant: threshold 5, fixed schema. -/
def sidecarVariant : Variant := ⟨5, false⟩

/-- Trace events: one per external operation the run issues. -/
inductive Ev where
  | deploy
  | connect
  | beginTx
  | selectLatest
  | fetchPrices
  | insertPrice (ethUsd degenUsd : ℚ)
  | createTable
  | selectBounties
  | updateRow (idx : ℕ) (value : ℚ)
  | commitTx
  | rollback
  | closeConn
deriving DecidableEq

/-- Outcomes of every external call a run can make.  `fetchPrices` is the
joint outcome of the two parallel `fetchPrice` calls (`Promise.all`): an
error if either rejects, otherwise the two parsed numeric prices.
`updateRow i` is the outcome of the `UPDATE` issued for the `i`-th row of
the bounty result set.  `noopRollback` / `catchRollback` are the outcomes of
the `ROLLBACK` statements issued in the skip branch and in the catch block
respectively. -/
structure Oracle where
  dbUrl : Bool
  deployment : Except Err Unit
  connect : Except Err Unit
  beginTx : Except Err Unit
  selectLatest : Except Err Unit
  fetchPrices : Except Err LatestPrice
  insertPrice : Except Err Unit
  createTable : Except Err Unit
  selectBounties : Except Err Unit
  rowsPresent : Bool
  updateRow : ℕ → Except Err Unit
  commitTx : Except Err Unit
  noopRollback : Except Err Unit
  catchRollback : Except Err Unit

/-- `percentChange` from the source: throws on a zero previous price,
otherwise `Math.abs(((current - previous) / previous) * 100)`. -/
def percentChange (current previous : ℚ) : Except Err ℚ :=
  if previous = 0 then .error .prevPriceZero
  else .ok |(current - previous) / previous * 100|

/-- The `shouldUpdatePrice` expression of `updateLatestPrice`:
`!latestPrice || percentChange(eth) > threshold || percentChange(degen) > threshold`,
with JavaScript left-to-right short-circuit evaluation (the degen
`percentChange` is only evaluated when the eth comparison is false). -/
def shouldUpdatePrice (threshold : ℚ) (current : LatestPrice)
    (latest : Option LatestPrice) : Except Err Bool :=
  match latest with
  | none => .ok true
  | some prev =>
    match percentChange current.ethUsd prev.ethUsd with
    | .error e => .error e
    | .ok pcEth =>
      if pcEth > threshold then .ok true
      else
        match percentChange current.degenUsd prev.degenUsd with
        | .error e => .error e
        | .ok pcDegen => .ok (decide (pcDegen > threshold))

/-- `Number.prototype.toFixed(5)` on an exact rational: the sign is split
off and the magnitude is rounded to the nearest multiple of `1/100000`,
ties picking the larger integer (so ties round away from zero overall). -/
def jsToFixed5 (x : ℚ) : ℚ :=
  if x < 0 then -(((⌊-x * 100000 + 1 / 2⌋ : ℤ) : ℚ)) / 100000
  else ((⌊x * 100000 + 1 / 2⌋ : ℤ) : ℚ) / 100000

/-- `formatEther(BigInt(amount))` then `Number(...)`: the raw base-unit
integer divided by `10^18`, exact in the rational model. -/
def formatEther (wei : ℕ) : ℚ := (wei : ℚ) / 10 ^ 18

/-- The body of the revaluation loop for one bounty row:
`Number(formatEther(BigInt(bounty.amount)))` times the selected price
(`degen` for chain id 666666666, `eth` otherwise), then `toFixed(5)`. -/
def bountyAmountSort (b : Bounty) (prices : LatestPrice) : ℚ :=
  jsToFixed5 (formatEther b.amount *
    (if b.chainId = 666666666 then prices.degenUsd else prices.ethUsd))

/-- Modelled from the spec: rounding "to 5 decimal places
(half-away-from-zero)" — the magnitude is scaled by `10^5`, rounded to the
nearest integer with ties away from zero, and scaled back. -/
def specRound5 (q : ℚ) : ℚ :=
  if 0 ≤ q then ((⌊q * 10 ^ 5 + 1 / 2⌋ : ℤ) : ℚ) / 10 ^ 5
  else -(((⌊-q * 10 ^ 5 + 1 / 2⌋ : ℤ) : ℚ) / 10 ^ 5)

/-- Modelled from the spec: `amountSort = tokenAmount * selectedPrice`
where `tokenAmount` is the 18-decimal base-unit amount as a decimal token
amount, the price is `degen` exactly for chain id 666666666 and `eth` for
every other chain, rounded to 5 decimal places. -/
def specAmountSort (b : Bounty) (prices : LatestPrice) : ℚ :=
  specRound5 ((b.amount : ℚ) / 10 ^ 18 *
    (if b.chainId = 666666666 then prices.degenUsd else prices.ethUsd))

/-- `updateLatestPrice`: read the latest snapshot, fetch both prices,
evaluate the decision; when it is false return the previous prices with
`didUpdate = false`; when it is true insert the fetched snapshot and return
it with `didUpdate = true`.  Returns the issued events alongside.  In the
`false` branch the latest snapshot necessarily exists (the decision is
unconditionally true without one), so the `getD` default is unreachable. -/
def updateLatestPrice (v : Variant) (o : Oracle) (pending : DB) :
    List Ev × Except Err (DB × LatestPrice × Bool) :=
  match o.selectLatest with
  | .error e => ([.selectLatest], .error e)
  | .ok _ =>
    let latest := pending.prices.getLast?
    match o.fetchPrices with
    | .error e => ([.selectLatest, .fetchPrices], .error e)
    | .ok current =>
      match shouldUpdatePrice v.threshold current latest with
      | .error e => ([.selectLatest, .fetchPrices], .error e)
      | .ok false =>
        ([.selectLatest, .fetchPrices], .ok (pending, latest.getD ⟨0, 0⟩, false))
      | .ok true =>
        match o.insertPrice with
        | .error e =>
          ([.selectLatest, .fetchPrices, .insertPrice current.ethUsd current.degenUsd],
            .error e)
        | .ok _ =>
          ([.selectLatest, .fetchPrices, .insertPrice current.ethUsd current.degenUsd],
            .ok ({ pending with prices := pending.prices ++ [current] }, current, true))

/-- `ensureLiveQueryTables`: a single `CREATE TABLE IF NOT EXISTS`; on
success the bookkeeping table exists in the pending state, on failure the
error is thrown to the caller. -/
def ensureLiveQueryTables (o : Oracle) (pending : DB) : List Ev × Except Err DB :=
  match o.createTable with
  | .error e => ([.createTable], .error e)
  | .ok _ => ([.createTable], .ok { pending with liveTable := true })

/-- The `WHERE` clause of the per-row `UPDATE`: the schema variant keys by
`id` alone, the sidecar variant by `(bounty_id, chain_id)`. -/
def rowMatches (v : Variant) (b row : Bounty) : Bool :=
  if v.dynamicSchema then row.id == b.id
  else row.id == b.id && row.chainId == b.chainId

/-- Effect on the pending state of the `UPDATE ... SET amount_sort = $1`
statement for one bounty row: every stored row matching the `WHERE` clause
gets the new `amount_sort` value. -/
def applyRowUpdate (v : Variant) (b : Bounty) (val : ℚ) (pending : DB) : DB :=
  { pending with
    bounties := pending.bounties.map fun row =>
      if rowMatches v b row then { row with amountSort := some val } else row }

/-- The `for` loop of `updateBountyAmounts`: rows are processed in order;
each row's `amount_sort` is computed and an `UPDATE` issued; the first
failing `UPDATE` aborts the loop and throws. -/
def updateRowsLoop (v : Variant) (o : Oracle) (prices : LatestPrice)
    (rows : List Bounty) (idx : ℕ) (pending : DB) : List Ev × Except Err DB :=
  match rows with
  | [] => ([], .ok pending)
  | b :: rest =>
    let val := bountyAmountSort b prices
    match o.updateRow idx with
    | .error e => ([.updateRow idx val], .error e)
    | .ok _ =>
      let r2 := updateRowsLoop v o prices rest (idx + 1) (applyRowUpdate v b val pending)
      (.updateRow idx val :: r2.1, r2.2)

/-- `updateBountyAmounts`: select all bounty rows, guard against an
undefined result set, run the revaluation loop, and return the row count
(`bountyResult.rowCount ?? 0`). -/
def updateBountyAmounts (v : Variant) (o : Oracle) (prices : LatestPrice)
    (pending : DB) : List Ev × Except Err (DB × ℕ) :=
  match o.selectBounties with
  | .error e => ([.selectBounties], .error e)
  | .ok _ =>
    if o.rowsPresent then
      let rows := pending.bounties
      let r2 := updateRowsLoop v o prices rows 0 pending
      (.selectBounties :: r2.1,
        match r2.2 with
        | .error e => .error e
        | .ok db2 => .ok (db2, rows.length))
    else ([.selectBounties], .error .rowsUndefined)

/-- The `try` block of `main`: `BEGIN`, `updateLatestPrice`, then either the
skip branch (`ROLLBACK`, success without mutation) or the ensure step
(dynamic variant only), `updateBountyAmounts` and `COMMIT`.  Returns the
events issued, the value of `transactionStarted` at exit, and either the
thrown error or the row count together with the new committed state. -/
def tryBlock (v : Variant) (o : Oracle) (db : DB) :
    List Ev × Bool × Except Err (ℕ × DB) :=
  match o.beginTx with
  | .error e => ([.beginTx], false, .error e)
  | .ok _ =>
    let r1 := updateLatestPrice v o db
    match r1.2 with
    | .error e => (.beginTx :: r1.1, true, .error e)
    | .ok (pending, prices, didUpdate) =>
      if didUpdate then
        let r2 : List Ev × Except Err DB :=
          if v.dynamicSchema then ensureLiveQueryTables o pending else ([], .ok pending)
        match r2.2 with
        | .error e => (.beginTx :: r1.1 ++ r2.1, true, .error e)
        | .ok pending2 =>
          let r3 := updateBountyAmounts v o prices pending2
          match r3.2 with
          | .error e => (.beginTx :: r1.1 ++ r2.1 ++ r3.1, true, .error e)
          | .ok (pending3, count) =>
            match o.commitTx with
            | .error e =>
              (.beginTx :: r1.1 ++ r2.1 ++ r3.1 ++ [.commitTx], true, .error e)
            | .ok _ =>
              (.beginTx :: r1.1 ++ r2.1 ++ r3.1 ++ [.commitTx], false, .ok (count, pending3))
      else
        match o.noopRollback with
        | .error e => (.beginTx :: r1.1 ++ [.rollback], true, .error e)
        | .ok _ => (.beginTx :: r1.1 ++ [.rollback], false, .ok (0, db))

instance {ε α : Type} [DecidableEq ε] [DecidableEq α] : DecidableEq (Except ε α) := fun x y =>
  match x, y with
  | .ok a, .ok b =>
    if h : a = b then .isTrue (congrArg Except.ok h)
    else .isFalse fun hh => h (Except.ok.inj hh)
  | .error a, .error b =>
    if h : a = b then .isTrue (congrArg Except.error h)
    else .isFalse fun hh => h (Except.error.inj hh)
  | .ok _, .error _ => .isFalse fun hh => Except.noConfusion hh
  | .error _, .ok _ => .isFalse fun hh => Except.noConfusion hh

/-- Outcome of a run: the value returned or error thrown by `main`, the
final committed database, and the trace of operations issued. -/
structure RunResult where
  outcome : Except Err ℕ
  db : DB
  trace : List Ev
deriving DecidableEq

/-- The `catch`/`finally` wrapper of `main`: on an error thrown while
`transactionStarted` is true, a bare `await client.query("ROLLBACK")` is
issued — when that rollback itself fails, its error propagates out of the
catch block and the original error is never re-thrown.  The connection is
closed on every path through the `try` statement. -/
def runBody (o : Oracle) (db : DB) (r : List Ev × Bool × Except Err (ℕ × DB)) :
    RunResult :=
  match r.2.2 with
  | .ok (count, db2) => ⟨.ok count, db2, r.1 ++ [.closeConn]⟩
  | .error e =>
    if r.2.1 then
      match o.catchRollback with
      | .error e2 => ⟨.error e2, db, r.1 ++ [.rollback, .closeConn]⟩
      | .ok _ => ⟨.error e, db, r.1 ++ [.rollback, .closeConn]⟩
    else ⟨.error e, db, r.1 ++ [.closeConn]⟩

/-- `main`: the `DATABASE_URL` guard, the deployment-id fetch (dynamic
variant only) and the connection attempt all precede the `try` statement,
so their failures are thrown without any rollback or connection close. -/
def runMain (v : Variant) (o : Oracle) (db : DB) : RunResult :=
  if o.dbUrl then
    if v.dynamicSchema then
      match o.deployment with
      | .error e => ⟨.error e, db, [.deploy]⟩
      | .ok _ =>
        match o.connect with
        | .error e => ⟨.error e, db, [.deploy, .connect]⟩
        | .ok _ =>
          let r := runBody o db (tryBlock v o db)
          ⟨r.outcome, r.db, .deploy :: .connect :: r.trace⟩
    else
      match o.connect with
      | .error e => ⟨.error e, db, [.connect]⟩
      | .ok _ =>
        let r := runBody o db (tryBlock v o db)
        ⟨r.outcome, r.db, .connect :: r.trace⟩
  else ⟨.error .noDbUrl, db, []⟩

/-- One attempt of `fetchPrice`: either the HTTP fetch / JSON parse rejects,
or a payload arrives whose `data.rates.USD` field is absent or present. -/
inductive Attempt where
  | netErr
  | payload (usd : Option String)
deriving DecidableEq

/-- Decimal digit string to natural number. -/
def digitsVal (cs : List Char) : ℕ :=
  cs.foldl (fun acc c => acc * 10 + (c.toNat - ('0').toNat)) 0

/-- Helper for `jsNumber`: parse `digits`, `digits.digits`, `.digits` or
`digits.` after the optional sign has been stripped. -/
def jsNumberCore (neg : Bool) (cs : List Char) : Option ℚ :=
  let sign : ℚ := if neg then -1 else 1
  let intPart := cs.takeWhile Char.isDigit
  let rest := cs.dropWhile Char.isDigit
  match rest with
  | [] =>
    if intPart.isEmpty then none else some (sign * (digitsVal intPart : ℚ))
  | '.' :: frac =>
    if frac.all Char.isDigit && !(intPart.isEmpty && frac.isEmpty) then
      some (sign * ((digitsVal intPart : ℚ) + (digitsVal frac : ℚ) / 10 ^ frac.length))
    else none
  | _ => none

/-- The JavaScript `Number(string)` conversion on the fragment relevant
here: plain decimal literals with an optional leading minus sign.  `none`
models `NaN` (a string outside the fragment). -/
def jsNumber (s : String) : Option ℚ :=
  match s.toList with
  | '-' :: rest => jsNumberCore true rest
  | cs => jsNumberCore false cs

/-- Whether one attempt of the `fetchPrice` `try` body succeeds, and with
which value: a network/parse rejection or a falsy `USD` field (absent or
the empty string) fails the attempt; any other string passes the
`if (!price)` guard and the attempt returns `Number(price)`. -/
def attemptValue : Attempt → Option (Option ℚ)
  | .netErr => none
  | .payload none => none
  | .payload (some s) => if s = "" then none else some (jsNumber s)

/-- The retry loop of `fetchPrice`: `retries` starts at 5; a successful
attempt returns immediately; a failed attempt decrements the counter and
throws `Can not fetch price` when it reaches zero.  (The `0` fuel case is
unreachable from the initial value 5; the JavaScript loop would spin
forever there, since `--retries` skips past `0`.) -/
def fetchPriceLoop (att : ℕ → Attempt) : ℕ → ℕ → Except Err (Option ℚ)
  | _, 0 => .error .fetchExhausted
  | idx, retries + 1 =>
    match attemptValue (att idx) with
    | some v => .ok v
    | none =>
      if retries = 0 then .error .fetchExhausted
      else fetchPriceLoop att (idx + 1) retries

/-- `fetchPrice` over a given sequence of attempt outcomes. -/
def fetchPrice (att : ℕ → Attempt) : Except Err (Option ℚ) :=
  fetchPriceLoop att 0 5

/-- `schemaName.replace(/"/g, '""')`: double every double-quote character. -/
def escapeQuotes : List Char → List Char
  | [] => []
  | c :: cs => if c = '"' then '"' :: '"' :: escapeQuotes cs else c :: escapeQuotes cs

/-- The quoted identifier built in the source: `"` + escaped name + `"`. -/
def quoteIdent (s : List Char) : List Char := '"' :: (escapeQuotes s ++ ['"'])

/-- SQL quoted-identifier scanner, positioned just after the opening quote:
`""` contributes a literal quote to the identifier, a lone `"` closes it,
any other character is literal; an unterminated identifier fails. -/
def scanQuoted : List Char → Option (List Char × List Char)
  | [] => none
  | c :: cs =>
    if c = '"' then
      match cs with
      | '"' :: cs2 => (scanQuoted cs2).map fun p => ('"' :: p.1, p.2)
      | _ => some ([], cs)
    else (scanQuoted cs).map fun p => (c :: p.1, p.2)

/-- SQL quoted-identifier lexer: expects an opening quote, then scans. -/
def parseQuotedIdent : List Char → Option (List Char × List Char)
  | c :: cs => if c = '"' then scanQuoted cs else none
  | [] => none

/-- An oracle in which every external call succeeds; concrete runs below are
built by overriding single fields. -/
def oAllOk : Oracle :=
  { dbUrl := true, deployment := .ok (), connect := .ok (), beginTx := .ok ()
    selectLatest := .ok (), fetchPrices := .ok ⟨2, 3⟩, insertPrice := .ok ()
    createTable := .ok (), selectBounties := .ok (), rowsPresent := true
    updateRow := fun _ => .ok (), commitTx := .ok (), noopRollback := .ok ()
    catchRollback := .ok () }

/-- Empty database: no snapshots, no bounties. -/
def dbEmpty : DB := ⟨[], [], false⟩

/-- Two bounty rows: one mainnet row of one token, one degen-chain row of
half a token, no snapshots yet. -/
def dbTwoBounties : DB :=
  ⟨[], [⟨1, 1, 10 ^ 18, none⟩, ⟨2, 666666666, 5 * 10 ^ 17, none⟩], false⟩

/-- Oracle whose second bounty-row update fails. -/
def oRowFail : Oracle :=
  { oAllOk with updateRow := fun i => if i = 1 then .error (.external 7) else .ok () }

/-- Oracle whose price fetch fails and whose catch-block rollback also
fails, with distinct error identities. -/
def oFetchAndRollbackFail : Oracle :=
  { oAllOk with fetchPrices := .error (.external 1), catchRollback := .error (.external 2) }

/-- Oracle whose latest-price select fails. -/
def oSelectFail : Oracle :=
  { oAllOk with selectLatest := .error (.external 3) }

/-- Oracle fetching the spec's below-threshold scenario prices. -/
def oSmallChange : Oracle :=
  { oAllOk with fetchPrices := .ok ⟨2150, 101 / 10000⟩ }

/-- Database holding the spec's scenario snapshot and one bounty row. -/
def dbScenario : DB := ⟨[⟨2000, 1 / 100⟩], [⟨1, 1, 10 ^ 18, none⟩], false⟩

/-- Oracle whose live-query-table creation fails. -/
def oCreateFail : Oracle :=
  { oAllOk with createTable := .error (.external 9) }

/-- Oracle fetching a zero eth price (as parsed from the string "0"). -/
def oZeroPrice : Oracle := { oAllOk with fetchPrices := .ok ⟨0, 1⟩ }

/-- Attempt sequence whose every payload carries the USD string "0". -/
def attZero : ℕ → Attempt := fun _ => .payload (some "0")

/-- Attempt sequence failing twice, then delivering the USD string "7". -/
def attThird : ℕ → Attempt := fun i => if i = 2 then .payload (some "7") else .netErr

/-- Degen-chain bounty of half a token, used in the revaluation witness. -/
def dbDegenBounty : DB := ⟨[], [⟨1, 666666666, 5 * 10 ^ 17, none⟩], false⟩

theorem jsToFixed5_eq_specRound5 (x : ℚ) : jsToFixed5 x = specRound5 x := by
  unfold jsToFixed5 specRound5
  rcases lt_or_le x 0 with h | h
  · rw [if_pos h, if_neg (not_le.mpr h)]
    norm_num [neg_div]
  · rw [if_neg (not_lt.mpr h), if_pos h]
    norm_num

theorem scanQuoted_escape (s : List Char) :
    scanQuoted (escapeQuotes s ++ ['"']) = some (s, []) := by
  induction s with
  | nil => rfl
  | cons c cs ih =>
    by_cases hc : c = '"'
    · subst hc
      simp [escapeQuotes, scanQuoted, ih]
    · simp only [escapeQuotes, if_neg hc, List.cons_append]
      rw [scanQuoted.eq_def]
      simp [hc, ih]

/-- C9: the identifier-escaping step doubles every embedded double-quote
character, and the quoted identifier built from any schema name — quotes
included — lexes as a single complete identifier equal to the original
name, with nothing escaping the quoted context. -/
theorem C9_identifier_escaping (s : List Char) :
    escapeQuotes s = s.flatMap (fun c => if c = '"' then ['"', '"'] else [c]) ∧
    parseQuotedIdent (quoteIdent s) = some (s, []) := by
  constructor
  · induction s with
    | nil => rfl
    | cons c cs ih =>
      by_cases hc : c = '"' <;> simp [escapeQuotes, hc, ih]
  · show parseQuotedIdent ('"' :: (escapeQuotes s ++ ['"'])) = some (s, [])
    simp [parseQuotedIdent, scanQuoted_escape]

/-- C3: the update decision is true unconditionally without a prior
snapshot; with one whose prices are positive it is true exactly when some
currency's percent change strictly exceeds the variant threshold (10 for
the schema-qualified variant, 5 for the sidecar variant), so a change
exactly equal to the threshold yields false. -/
theorem C3_update_decision :
    (∀ threshold : ℚ, ∀ current : LatestPrice,
        shouldUpdatePrice threshold current none = .ok true) ∧
    (∀ threshold ce cd pe pd : ℚ, 0 < pe → 0 < pd →
        shouldUpdatePrice threshold ⟨ce, cd⟩ (some ⟨pe, pd⟩) =
          .ok (decide (|(ce - pe) / pe * 100| > threshold ∨
                       |(cd - pd) / pd * 100| > threshold))) ∧
    schemaVariant.threshold = 10 ∧ sidecarVariant.threshold = 5 := by
  refine ⟨fun _ _ => rfl, fun threshold ce cd pe pd hpe hpd => ?_, rfl, rfl⟩
  simp only [shouldUpdatePrice, percentChange, if_neg hpe.ne', if_neg hpd.ne']
  by_cases h : |(ce - pe) / pe * 100| > threshold
  · simp [h]
  · simp [h]

/-- C3 witness: the spec's below-threshold scenario (previous eth 2000 and
degen 0.01, fetched eth 2150 and degen 0.0101, threshold 10). -/
theorem C3_update_decision_witness :
    (0 : ℚ) < 2000 ∧ (0 : ℚ) < 1 / 100 ∧
    shouldUpdatePrice 10 ⟨2150, 101 / 10000⟩ (some ⟨2000, 1 / 100⟩) =
      .ok (decide (|((2150 : ℚ) - 2000) / 2000 * 100| > 10 ∨
                   |((101 / 10000 : ℚ) - 1 / 100) / (1 / 100) * 100| > 10)) :=
  ⟨by norm_num, by norm_num,
    C3_update_decision.2.1 10 2150 (101 / 10000) 2000 (1 / 100) (by norm_num) (by norm_num)⟩

/-- C7 counterexample: with previous prices eth 100 and degen 0 and a
fetched eth price of 200, the degen previous price is exactly zero yet the
decision evaluates to true instead of failing — the eth comparison
short-circuits and the degen percent change is never computed. -/
theorem C7_division_by_zero_counterexample :
    shouldUpdatePrice 10 ⟨200, 1⟩ (some ⟨100, 0⟩) = .ok true ∧
    shouldUpdatePrice 10 ⟨200, 1⟩ (some ⟨100, 0⟩) ≠ .error .prevPriceZero := by
  have h : shouldUpdatePrice 10 ⟨200, 1⟩ (some ⟨100, 0⟩) = .ok true := by
    norm_num [shouldUpdatePrice, percentChange, abs_of_nonneg]
  exact ⟨h, by simp [h]⟩

/-- C7 amended: the percent change is `abs((current - previous) / previous) * 100`
per currency, and the evaluation fails with the division-by-zero error if
the eth previous price is zero, or if the degen previous price is zero and
the eth percent change does not strictly exceed the threshold; when the eth
change already exceeds the threshold, a zero degen previous price is never
examined and the decision succeeds with true. -/
theorem C7_percent_change_short_circuit :
    (∀ c p : ℚ, p ≠ 0 → percentChange c p = .ok |(c - p) / p * 100|) ∧
    (∀ c : ℚ, percentChange c 0 = .error .prevPriceZero) ∧
    (∀ threshold ce cd pd : ℚ,
        shouldUpdatePrice threshold ⟨ce, cd⟩ (some ⟨0, pd⟩) = .error .prevPriceZero) ∧
    (∀ threshold ce cd pe : ℚ, pe ≠ 0 → ¬(|(ce - pe) / pe * 100| > threshold) →
        shouldUpdatePrice threshold ⟨ce, cd⟩ (some ⟨pe, 0⟩) = .error .prevPriceZero) ∧
    (∀ threshold ce cd pe : ℚ, pe ≠ 0 → |(ce - pe) / pe * 100| > threshold →
        shouldUpdatePrice threshold ⟨ce, cd⟩ (some ⟨pe, 0⟩) = .ok true) := by
  refine ⟨fun c p hp => by simp [percentChange, hp],
          fun c => by simp [percentChange],
          fun threshold ce cd pd => by simp [shouldUpdatePrice, percentChange],
          fun threshold ce cd pe hp hno => ?_,
          fun threshold ce cd pe hp hyes => ?_⟩
  · simp only [shouldUpdatePrice, percentChange, if_neg hp]
    simp [hno]
  · simp only [shouldUpdatePrice, percentChange, if_neg hp]
    simp [hyes]

/-- C7 amended witness: previous eth 100 and degen 0, fetched eth 200 —
the eth change of 100 percent exceeds the threshold, so the decision
returns true despite the zero degen previous price. -/
theorem C7_percent_change_short_circuit_witness :
    (100 : ℚ) ≠ 0 ∧ |((200 : ℚ) - 100) / 100 * 100| > 10 ∧
    shouldUpdatePrice 10 ⟨200, 1⟩ (some ⟨100, 0⟩) = .ok true :=
  ⟨by norm_num, by norm_num [abs_of_nonneg],
    C7_percent_change_short_circuit.2.2.2.2 10 200 1 100 (by norm_num)
      (by norm_num [abs_of_nonneg])⟩

theorem fetchPriceLoop_congr (att att' : ℕ → Attempt) :
    ∀ (r idx : ℕ), (∀ i, idx ≤ i → i < idx + r → att i = att' i) →
      fetchPriceLoop att idx r = fetchPriceLoop att' idx r := by
  intro r
  induction r with
  | zero => intro idx _; rfl
  | succ n ih =>
    intro idx h
    have h0 : att idx = att' idx := h idx le_rfl (by omega)
    simp only [fetchPriceLoop, h0]
    cases attemptValue (att' idx) with
    | some v => rfl
    | none =>
      by_cases hn : n = 0
      · simp [hn]
      · simp only [if_neg hn]
        exact ih (idx + 1) (fun i h1 h2 => h i (by omega) (by omega))

theorem fetchPriceLoop_all_fail (att : ℕ → Attempt) :
    ∀ (r idx : ℕ), 0 < r → (∀ i, idx ≤ i → i < idx + r → attemptValue (att i) = none) →
      fetchPriceLoop att idx r = .error .fetchExhausted := by
  intro r
  induction r with
  | zero => intro idx h0 _; exact absurd h0 (by omega)
  | succ n ih =>
    intro idx _ h
    have h0 : attemptValue (att idx) = none := h idx le_rfl (by omega)
    simp only [fetchPriceLoop, h0]
    by_cases hn : n = 0
    · simp [hn]
    · simp only [if_neg hn]
      exact ih (idx + 1) (by omega) (fun i h1 h2 => h i (by omega) (by omega))

theorem fetchPriceLoop_first_success (att : ℕ → Attempt) :
    ∀ (r k idx : ℕ) (v : Option ℚ), k < r →
      (∀ i, idx ≤ i → i < idx + k → attemptValue (att i) = none) →
      attemptValue (att (idx + k)) = some v →
      fetchPriceLoop att idx r = .ok v := by
  intro r
  induction r with
  | zero => intro k idx v hk _ _; omega
  | succ n ih =>
    intro k idx v hk hb hs
    cases k with
    | zero =>
      have h0 : attemptValue (att idx) = some v := by simpa using hs
      simp [fetchPriceLoop, h0]
    | succ m =>
      have h0 : attemptValue (att idx) = none := hb idx le_rfl (by omega)
      simp only [fetchPriceLoop, h0]
      have hn : n ≠ 0 := by omega
      simp only [if_neg hn]
      refine ih m (idx + 1) v (by omega) (fun i h1 h2 => hb i (by omega) (by omega)) ?_
      have harith : idx + 1 + m = idx + (m + 1) := by omega
      rw [harith]
      exact hs

theorem fetchPriceLoop_ok_inv (att : ℕ → Attempt) :
    ∀ (r idx : ℕ) (v : Option ℚ), fetchPriceLoop att idx r = .ok v →
      ∃ k, k < r ∧ attemptValue (att (idx + k)) = some v := by
  intro r
  induction r with
  | zero => intro idx v h; exact absurd h (by simp [fetchPriceLoop])
  | succ n ih =>
    intro idx v h
    simp only [fetchPriceLoop] at h
    cases hval : attemptValue (att idx) with
    | some w =>
      rw [hval] at h
      have hw : w = v := by simpa using h
      exact ⟨0, by omega, by simpa [hw] using hval⟩
    | none =>
      rw [hval] at h
      by_cases hn : n = 0
      · rw [if_pos hn] at h
        exact absurd h (by simp)
      · rw [if_neg hn] at h
        obtain ⟨k, hk, hatt⟩ := ih (idx + 1) v h
        refine ⟨k + 1, by omega, ?_⟩
        have harith : idx + (k + 1) = idx + 1 + k := by omega
        rw [harith]
        exact hatt

/-- C6: the price fetch makes at most 5 attempts: if every one of the first
5 attempts fails it fails with the exhausted-retries error; if some attempt
among the first 5 is the first to succeed, the fetch returns that attempt's
parsed price; and the result never depends on any attempt beyond the first
5 (no 6th attempt is consulted). -/
theorem C6_fetch_retry_bound :
    (∀ att : ℕ → Attempt, (∀ i, i < 5 → attemptValue (att i) = none) →
        fetchPrice att = .error .fetchExhausted) ∧
    (∀ (att : ℕ → Attempt) (k : ℕ) (v : Option ℚ), k < 5 →
        (∀ i, i < k → attemptValue (att i) = none) → attemptValue (att k) = some v →
        fetchPrice att = .ok v) ∧
    (∀ att att' : ℕ → Attempt, (∀ i, i < 5 → att i = att' i) →
        fetchPrice att = fetchPrice att') := by
  refine ⟨fun att h => ?_, fun att k v hk hb hs => ?_, fun att att' h => ?_⟩
  · exact fetchPriceLoop_all_fail att 5 0 (by norm_num) (fun i _ h2 => h i (by omega))
  · exact fetchPriceLoop_first_success att 5 k 0 v hk (fun i _ h2 => hb i (by omega))
      (by simpa using hs)
  · exact fetchPriceLoop_congr att att' 5 0 (fun i _ h2 => h i (by omega))

/-- C6 witness: two failing attempts, then a payload carrying the USD
string "7": the fetch returns the parsed price 7 on the third attempt. -/
theorem C6_fetch_retry_bound_witness :
    (2 : ℕ) < 5 ∧ attemptValue (attThird 2) = some (some 7) ∧
    fetchPrice attThird = .ok (some 7) := by
  have h2 : attemptValue (attThird 2) = some (some 7) := by
    simp [attThird, attemptValue, jsNumber, jsNumberCore, digitsVal,
      List.takeWhile, List.dropWhile, Char.isDigit]
  refine ⟨by norm_num, h2, C6_fetch_retry_bound.2.1 attThird 2 (some 7) (by norm_num) ?_ h2⟩
  intro i hi
  interval_cases i <;> rfl

theorem updateRowsLoop_ok_mem (v : Variant) (o : Oracle) (prices : LatestPrice)
    (hok : ∀ j, o.updateRow j = .ok ()) :
    ∀ (rows : List Bounty) (idx : ℕ) (pending : DB) (i : ℕ) (b : Bounty),
      rows[i]? = some b →
      Ev.updateRow (idx + i) (bountyAmountSort b prices) ∈
        (updateRowsLoop v o prices rows idx pending).1 := by
  intro rows
  induction rows with
  | nil => intro idx pending i b h; simp at h
  | cons hd tl ih =>
    intro idx pending i b h
    simp only [updateRowsLoop, hok idx]
    cases i with
    | zero =>
      simp only [List.getElem?_cons_zero, Option.some.injEq] at h
      subst h
      simp
    | succ m =>
      simp only [List.getElem?_cons_succ] at h
      simp only [List.mem_cons]
      right
      rw [(by omega : idx + (m + 1) = idx + 1 + m)]
      exact ih (idx + 1) (applyRowUpdate v hd (bountyAmountSort hd prices) pending) m b h

theorem updateRowsLoop_fail (v : Variant) (o : Oracle) (prices : LatestPrice) :
    ∀ (rows : List Bounty) (idx j : ℕ) (pending : DB) (e : Err),
      j < rows.length →
      (∀ i, i < j → o.updateRow (idx + i) = .ok ()) →
      o.updateRow (idx + j) = .error e →
      (updateRowsLoop v o prices rows idx pending).2 = .error e ∧
      (∃ val, Ev.updateRow (idx + j) val ∈ (updateRowsLoop v o prices rows idx pending).1) ∧
      (∀ i val, Ev.updateRow i val ∈ (updateRowsLoop v o prices rows idx pending).1 →
        idx ≤ i ∧ i ≤ idx + j) := by
  intro rows
  induction rows with
  | nil => intro idx j pending e hj _ _; simp at hj
  | cons hd tl ih =>
    intro idx j pending e hj hok hfail
    cases j with
    | zero =>
      have h0 : o.updateRow idx = .error e := by simpa using hfail
      refine ⟨?_, ⟨bountyAmountSort hd prices, ?_⟩, ?_⟩
      · simp [updateRowsLoop, h0]
      · simp [updateRowsLoop, h0]
      · intro i val hmem
        simp only [updateRowsLoop, h0, List.mem_singleton, Ev.updateRow.injEq] at hmem
        obtain ⟨hi, -⟩ := hmem
        omega
    | succ m =>
      have h0 : o.updateRow idx = .ok () := by simpa using hok 0 (by omega)
      have hj' : m < tl.length := by simpa using hj
      have hok' : ∀ i, i < m → o.updateRow (idx + 1 + i) = .ok () := fun i hi => by
        have hh := hok (i + 1) (by omega)
        rwa [(by omega : idx + (i + 1) = idx + 1 + i)] at hh
      have hfail' : o.updateRow (idx + 1 + m) = .error e := by
        rw [(by omega : idx + 1 + m = idx + (m + 1))]
        exact hfail
      have hrec := ih (idx + 1) m
        (applyRowUpdate v hd (bountyAmountSort hd prices) pending) e hj' hok' hfail'
      refine ⟨?_, ?_, ?_⟩
      · simp only [updateRowsLoop, h0]
        exact hrec.1
      · obtain ⟨val, hv⟩ := hrec.2.1
        refine ⟨val, ?_⟩
        simp only [updateRowsLoop, h0, List.mem_cons]
        right
        rw [(by omega : idx + (m + 1) = idx + 1 + m)]
        exact hv
      · intro i val hmem
        simp only [updateRowsLoop, h0, List.mem_cons, Ev.updateRow.injEq] at hmem
        rcases hmem with ⟨hi, -⟩ | hmem2
        · omega
        · have := hrec.2.2 i val hmem2
          omega

/-- C4: the value the revaluation loop persists for every bounty row equals
the spec formula — the raw 18-decimal base-unit amount as a decimal token
amount, times the degen price exactly when the chain id is 666666666 and
the eth price otherwise, rounded to 5 decimal places with `toFixed(5)`
(half-away-from-zero) semantics; and in a run where the row updates
succeed, the `UPDATE` issued for the `i`-th selected row carries exactly
that value. -/
theorem C4_amount_sort_formula :
    (∀ (b : Bounty) (prices : LatestPrice),
        bountyAmountSort b prices = specAmountSort b prices) ∧
    (∀ (v : Variant) (o : Oracle) (prices : LatestPrice) (pending : DB),
        o.selectBounties = .ok () → o.rowsPresent = true →
        (∀ j, o.updateRow j = .ok ()) →
        ∀ i b, pending.bounties[i]? = some b →
          Ev.updateRow i (specAmountSort b prices) ∈
            (updateBountyAmounts v o prices pending).1) := by
  have hfun : ∀ (b : Bounty) (prices : LatestPrice),
      bountyAmountSort b prices = specAmountSort b prices := by
    intro b prices
    unfold bountyAmountSort specAmountSort formatEther
    rw [jsToFixed5_eq_specRound5]
  refine ⟨hfun, fun v o prices pending hsel hrows hok i b hib => ?_⟩
  rw [← hfun]
  simp only [updateBountyAmounts, hsel, hrows, if_true]
  simp only [List.mem_cons]
  right
  have hmem := updateRowsLoop_ok_mem v o prices hok pending.bounties 0 pending i b hib
  simpa using hmem

/-- C4 witness: the spec's degen scenario — half a token on chain
666666666 at degen price 0.02 — yields an issued `UPDATE` carrying
`amount_sort` 0.01. -/
theorem C4_amount_sort_formula_witness :
    oAllOk.selectBounties = .ok () ∧ oAllOk.rowsPresent = true ∧
    Ev.updateRow 0 (specAmountSort ⟨1, 666666666, 5 * 10 ^ 17, none⟩ ⟨2300, 2 / 100⟩) ∈
      (updateBountyAmounts sidecarVariant oAllOk ⟨2300, 2 / 100⟩ dbDegenBounty).1 ∧
    specAmountSort ⟨1, 666666666, 5 * 10 ^ 17, none⟩ ⟨2300, 2 / 100⟩ = 1 / 100 := by
  refine ⟨rfl, rfl, ?_, ?_⟩
  · exact C4_amount_sort_formula.2 sidecarVariant oAllOk ⟨2300, 2 / 100⟩ dbDegenBounty rfl rfl
      (fun _ => rfl) 0 ⟨1, 666666666, 5 * 10 ^ 17, none⟩ (by simp [dbDegenBounty])
  · norm_num [specAmountSort, specRound5]

/-- C1: if, in a run that reaches the revaluation loop, the update of the
`j`-th bounty row fails, then the row updates stop at row `j` (an `UPDATE`
for row `j` is issued, none with a larger index), the error propagates as
the run's outcome, a rollback is issued, and the committed database —
snapshots and `amount_sort` values alike — is exactly the initial one. -/
theorem C1_atomic_revaluation
    (v : Variant) (o : Oracle) (db : DB) (j : ℕ) (e : Err)
    (hurl : o.dbUrl = true) (hdep : o.deployment = .ok ())
    (hconn : o.connect = .ok ()) (hbegin : o.beginTx = .ok ())
    (hsel : o.selectLatest = .ok ())
    (cur : LatestPrice) (hfetch : o.fetchPrices = .ok cur)
    (hdec : shouldUpdatePrice v.threshold cur db.prices.getLast? = .ok true)
    (hins : o.insertPrice = .ok ()) (hcreate : o.createTable = .ok ())
    (hselb : o.selectBounties = .ok ()) (hrows : o.rowsPresent = true)
    (hj : j < db.bounties.length)
    (hok : ∀ i, i < j → o.updateRow i = .ok ())
    (hfail : o.updateRow j = .error e)
    (hrb : o.catchRollback = .ok ()) :
    (runMain v o db).outcome = .error e ∧
    (runMain v o db).db = db ∧
    Ev.rollback ∈ (runMain v o db).trace ∧
    (∃ val, Ev.updateRow j val ∈ (runMain v o db).trace) ∧
    (∀ i val, Ev.updateRow i val ∈ (runMain v o db).trace → i ≤ j) := by
  cases hdyn : v.dynamicSchema with
  | true =>
    have hloop := updateRowsLoop_fail v o cur db.bounties 0 j
      (⟨db.prices ++ [cur], db.bounties, true⟩ : DB) e hj
      (fun i hi => by simpa using hok i hi) (by simpa using hfail)
    have hrun : runMain v o db =
        ⟨.error e, db,
          Ev.deploy :: Ev.connect ::
            ((Ev.beginTx :: [Ev.selectLatest, Ev.fetchPrices,
                Ev.insertPrice cur.ethUsd cur.degenUsd] ++ [Ev.createTable] ++
              (Ev.selectBounties ::
                (updateRowsLoop v o cur db.bounties 0
                  (⟨db.prices ++ [cur], db.bounties, true⟩ : DB)).1)) ++
              [Ev.rollback, Ev.closeConn])⟩ := by
      simp [runMain, runBody, tryBlock, updateLatestPrice, updateBountyAmounts,
        ensureLiveQueryTables, hurl, hdyn, hdep, hconn, hbegin, hsel, hfetch, hdec,
        hins, hcreate, hselb, hrows, hrb, hloop.1]
    have hchar : ∀ i val, Ev.updateRow i val ∈ (runMain v o db).trace ↔
        Ev.updateRow i val ∈ (updateRowsLoop v o cur db.bounties 0
          (⟨db.prices ++ [cur], db.bounties, true⟩ : DB)).1 := by
      intro i val
      simp [hrun]
    refine ⟨by simp [hrun], by simp [hrun], by simp [hrun], ?_, ?_⟩
    · obtain ⟨val, hv⟩ := hloop.2.1
      exact ⟨val, (hchar j val).mpr (by simpa using hv)⟩
    · intro i val h
      have := hloop.2.2 i val ((hchar i val).mp h)
      omega
  | false =>
    have hloop := updateRowsLoop_fail v o cur db.bounties 0 j
      (⟨db.prices ++ [cur], db.bounties, db.liveTable⟩ : DB) e hj
      (fun i hi => by simpa using hok i hi) (by simpa using hfail)
    have hrun : runMain v o db =
        ⟨.error e, db,
          Ev.connect ::
            ((Ev.beginTx :: [Ev.selectLatest, Ev.fetchPrices,
                Ev.insertPrice cur.ethUsd cur.degenUsd] ++
              (Ev.selectBounties ::
                (updateRowsLoop v o cur db.bounties 0
                  (⟨db.prices ++ [cur], db.bounties, db.liveTable⟩ : DB)).1)) ++
              [Ev.rollback, Ev.closeConn])⟩ := by
      simp [runMain, runBody, tryBlock, updateLatestPrice, updateBountyAmounts,
        ensureLiveQueryTables, hurl, hdyn, hdep, hconn, hbegin, hsel, hfetch, hdec,
        hins, hcreate, hselb, hrows, hrb, hloop.1]
    have hchar : ∀ i val, Ev.updateRow i val ∈ (runMain v o db).trace ↔
        Ev.updateRow i val ∈ (updateRowsLoop v o cur db.bounties 0
          (⟨db.prices ++ [cur], db.bounties, db.liveTable⟩ : DB)).1 := by
      intro i val
      simp [hrun]
    refine ⟨by simp [hrun], by simp [hrun], by simp [hrun], ?_, ?_⟩
    · obtain ⟨val, hv⟩ := hloop.2.1
      exact ⟨val, (hchar j val).mpr (by simpa using hv)⟩
    · intro i val h
      have := hloop.2.2 i val ((hchar i val).mp h)
      omega

/-- C1 witness: two bounty rows, the second row's `UPDATE` fails with
error identity 7 — the run fails with that error and commits nothing. -/
theorem C1_atomic_revaluation_witness :
    (1 : ℕ) < dbTwoBounties.bounties.length ∧
    oRowFail.updateRow 1 = .error (.external 7) ∧
    (runMain schemaVariant oRowFail dbTwoBounties).outcome = .error (.external 7) ∧
    (runMain schemaVariant oRowFail dbTwoBounties).db = dbTwoBounties := by
  have h := C1_atomic_revaluation schemaVariant oRowFail dbTwoBounties 1 (.external 7)
    rfl rfl rfl rfl rfl ⟨2, 3⟩ rfl rfl rfl rfl rfl rfl
    (by simp [dbTwoBounties])
    (by intro i hi; interval_cases i; rfl) rfl rfl
  exact ⟨by simp [dbTwoBounties], rfl, h.1, h.2.1⟩

/-- C2 counterexample: the price fetch fails with error identity 1 inside
the open transaction; the catch-block rollback itself fails with error
identity 2; the run's outcome is the rollback's error, not the original
one — the original failure is masked. -/
theorem C2_error_masking_counterexample :
    (tryBlock sidecarVariant oFetchAndRollbackFail dbEmpty).2.2 = .error (.external 1) ∧
    (tryBlock sidecarVariant oFetchAndRollbackFail dbEmpty).2.1 = true ∧
    (runMain sidecarVariant oFetchAndRollbackFail dbEmpty).outcome = .error (.external 2) ∧
    Err.external 2 ≠ Err.external 1 := by
  refine ⟨?_, ?_, ?_, by simp⟩
  · simp [tryBlock, updateLatestPrice, oFetchAndRollbackFail, oAllOk, dbEmpty]
  · simp [tryBlock, updateLatestPrice, oFetchAndRollbackFail, oAllOk, dbEmpty]
  · simp [runMain, runBody, tryBlock, updateLatestPrice, sidecarVariant,
      oFetchAndRollbackFail, oAllOk, dbEmpty]

/-- C2 amended: for every failure of the try block after the transaction
was opened, the runner issues a rollback and nothing is committed; the
original error is re-raised exactly when that rollback succeeds — when the
rollback attempt itself fails, the rollback's error replaces the original
one as the run's outcome. -/
theorem C2_rollback_attempt_and_mask
    (v : Variant) (o : Oracle) (db : DB) (e : Err)
    (hurl : o.dbUrl = true) (hdep : o.deployment = .ok ())
    (hconn : o.connect = .ok ())
    (hbody : (tryBlock v o db).2.2 = .error e)
    (htx : (tryBlock v o db).2.1 = true) :
    Ev.rollback ∈ (runMain v o db).trace ∧
    (runMain v o db).db = db ∧
    (runMain v o db).outcome = (match o.catchRollback with
      | .ok _ => .error e
      | .error e2 => .error e2) := by
  cases hdyn : v.dynamicSchema <;> cases hc : o.catchRollback <;>
    simp [runMain, runBody, hurl, hdyn, hdep, hconn, hbody, htx, hc]

/-- C2 amended witness: the latest-price select fails with error identity
3 after `BEGIN`; the rollback succeeds and the original error is the
run's outcome. -/
theorem C2_rollback_attempt_and_mask_witness :
    (tryBlock sidecarVariant oSelectFail dbEmpty).2.2 = .error (.external 3) ∧
    (tryBlock sidecarVariant oSelectFail dbEmpty).2.1 = true ∧
    Ev.rollback ∈ (runMain sidecarVariant oSelectFail dbEmpty).trace ∧
    (runMain sidecarVariant oSelectFail dbEmpty).outcome = .error (.external 3) := by
  have hbody : (tryBlock sidecarVariant oSelectFail dbEmpty).2.2 = .error (.external 3) := by
    simp [tryBlock, updateLatestPrice, oSelectFail, oAllOk, dbEmpty]
  have htx : (tryBlock sidecarVariant oSelectFail dbEmpty).2.1 = true := by
    simp [tryBlock, updateLatestPrice, oSelectFail, oAllOk, dbEmpty]
  have h := C2_rollback_attempt_and_mask sidecarVariant oSelectFail dbEmpty (.external 3)
    rfl rfl rfl hbody htx
  refine ⟨hbody, htx, h.1, ?_⟩
  rw [h.2.2]
  simp [oSelectFail, oAllOk]

/-- C5: in every run whose update decision is false, the run rolls back,
returns success, inserts no price snapshot, never reads or writes a bounty
row, and leaves the committed database exactly as it was. -/
theorem C5_noop_skip_no_mutation
    (v : Variant) (o : Oracle) (db : DB)
    (hurl : o.dbUrl = true) (hdep : o.deployment = .ok ())
    (hconn : o.connect = .ok ()) (hbegin : o.beginTx = .ok ())
    (hsel : o.selectLatest = .ok ())
    (cur : LatestPrice) (hfetch : o.fetchPrices = .ok cur)
    (hdec : shouldUpdatePrice v.threshold cur db.prices.getLast? = .ok false)
    (hnoop : o.noopRollback = .ok ()) :
    (runMain v o db).outcome = .ok 0 ∧
    (runMain v o db).db = db ∧
    Ev.rollback ∈ (runMain v o db).trace ∧
    (∀ e d, Ev.insertPrice e d ∉ (runMain v o db).trace) ∧
    Ev.selectBounties ∉ (runMain v o db).trace ∧
    (∀ i val, Ev.updateRow i val ∉ (runMain v o db).trace) := by
  have hrun : runMain v o db =
      ⟨.ok 0, db,
        (if v.dynamicSchema then [Ev.deploy, Ev.connect] else [Ev.connect]) ++
          [Ev.beginTx, Ev.selectLatest, Ev.fetchPrices, Ev.rollback, Ev.closeConn]⟩ := by
    cases hdyn : v.dynamicSchema <;>
      simp [runMain, runBody, tryBlock, updateLatestPrice, hurl, hdyn, hdep, hconn,
        hbegin, hsel, hfetch, hdec, hnoop]
  rw [hrun]
  cases v.dynamicSchema <;> simp

/-- C5 witness: the spec's scenario — previous snapshot eth 2000 and degen
0.01, fetched eth 2150 and degen 0.0101, threshold 10 — skips with success
and no mutation. -/
theorem C5_noop_skip_no_mutation_witness :
    shouldUpdatePrice schemaVariant.threshold ⟨2150, 101 / 10000⟩
      dbScenario.prices.getLast? = .ok false ∧
    (runMain schemaVariant oSmallChange dbScenario).outcome = .ok 0 ∧
    (runMain schemaVariant oSmallChange dbScenario).db = dbScenario := by
  have hdec : shouldUpdatePrice schemaVariant.threshold ⟨2150, 101 / 10000⟩
      dbScenario.prices.getLast? = .ok false := by
    norm_num [shouldUpdatePrice, percentChange, dbScenario, schemaVariant,
      abs_of_nonneg, decide_eq_false_iff_not]
  have h := C5_noop_skip_no_mutation schemaVariant oSmallChange dbScenario rfl rfl rfl rfl
    rfl ⟨2150, 101 / 10000⟩ rfl hdec rfl
  exact ⟨hdec, h.1, h.2.1⟩

/-- C10: in the dynamic-schema variant, a failing create-if-absent of the
bookkeeping table is fatal: the snapshot already inserted in the
transaction is rolled back with everything else, no bounty row is read or
revalued, and the error is the run's outcome. -/
theorem C10_ensure_step_fatal
    (o : Oracle) (db : DB) (e : Err)
    (hurl : o.dbUrl = true) (hdep : o.deployment = .ok ())
    (hconn : o.connect = .ok ()) (hbegin : o.beginTx = .ok ())
    (hsel : o.selectLatest = .ok ())
    (cur : LatestPrice) (hfetch : o.fetchPrices = .ok cur)
    (hdec : shouldUpdatePrice schemaVariant.threshold cur db.prices.getLast? = .ok true)
    (hins : o.insertPrice = .ok ()) (hcreate : o.createTable = .error e)
    (hrb : o.catchRollback = .ok ()) :
    (runMain schemaVariant o db).outcome = .error e ∧
    (runMain schemaVariant o db).db = db ∧
    Ev.rollback ∈ (runMain schemaVariant o db).trace ∧
    Ev.insertPrice cur.ethUsd cur.degenUsd ∈ (runMain schemaVariant o db).trace ∧
    Ev.selectBounties ∉ (runMain schemaVariant o db).trace ∧
    (∀ i val, Ev.updateRow i val ∉ (runMain schemaVariant o db).trace) := by
  simp only [schemaVariant] at hdec
  have hrun : runMain schemaVariant o db =
      ⟨.error e, db,
        [Ev.deploy, Ev.connect, Ev.beginTx, Ev.selectLatest, Ev.fetchPrices,
          Ev.insertPrice cur.ethUsd cur.degenUsd, Ev.createTable, Ev.rollback,
          Ev.closeConn]⟩ := by
    simp [runMain, runBody, tryBlock, updateLatestPrice, ensureLiveQueryTables,
      schemaVariant, hurl, hdep, hconn, hbegin, hsel, hfetch, hdec, hins, hcreate, hrb]
  rw [hrun]
  simp

/-- C10 witness: the bookkeeping-table creation fails with error identity
9 in a run that had already inserted a snapshot; the run fails with that
error and the committed database is unchanged. -/
theorem C10_ensure_step_fatal_witness :
    oCreateFail.createTable = .error (.external 9) ∧
    (runMain schemaVariant oCreateFail dbTwoBounties).outcome = .error (.external 9) ∧
    (runMain schemaVariant oCreateFail dbTwoBounties).db = dbTwoBounties ∧
    Ev.selectBounties ∉ (runMain schemaVariant oCreateFail dbTwoBounties).trace := by
  have h := C10_ensure_step_fatal oCreateFail dbTwoBounties (.external 9) rfl rfl rfl rfl
    rfl ⟨2, 3⟩ rfl rfl rfl rfl rfl
  exact ⟨rfl, h.1, h.2.1, h.2.2.2.2.1⟩

/-- C8 counterexample: the string "0" passes the fetch's truthiness guard,
so the fetch can return the parsed price 0; a run fetching that value
commits a snapshot whose eth field is 0, which is not positive. -/
theorem C8_positive_price_counterexample :
    fetchPrice attZero = .ok (some 0) ∧
    oZeroPrice.fetchPrices = .ok ⟨0, 1⟩ ∧
    (runMain sidecarVariant oZeroPrice dbEmpty).db.prices = [⟨0, 1⟩] ∧
    ¬(0 < (0 : ℚ)) := by
  refine ⟨?_, rfl, ?_, by norm_num⟩
  · have hjs : jsNumber "0" = some 0 := by
      simp [jsNumber, jsNumberCore, digitsVal, List.takeWhile, List.dropWhile,
        Char.isDigit]
    have hsucc : attemptValue (attZero 0) = some (some 0) := by
      simp [attZero, attemptValue, hjs]
    exact fetchPriceLoop_first_success attZero 5 0 0 (some 0) (by norm_num)
      (fun i h1 h2 => absurd h2 (by omega)) (by simpa using hsucc)
  · simp [runMain, runBody, tryBlock, updateLatestPrice, shouldUpdatePrice,
      percentChange, updateBountyAmounts, updateRowsLoop, sidecarVariant,
      oZeroPrice, oAllOk, dbEmpty]

/-- C8 amended: the fetch guarantees only that a successful result comes
from an attempt whose USD string was present and non-empty — the value is
that string's parse, with no positivity check — and every snapshot
insertion issued by `updateLatestPrice` carries exactly the two fetched
values verbatim. -/
theorem C8_inserted_values_provenance :
    (∀ (att : ℕ → Attempt) (v : Option ℚ), fetchPrice att = .ok v →
        ∃ k, k < 5 ∧ ∃ s, att k = .payload (some s) ∧ s ≠ "" ∧ v = jsNumber s) ∧
    (∀ (vr : Variant) (o : Oracle) (pending : DB) (e d : ℚ),
        Ev.insertPrice e d ∈ (updateLatestPrice vr o pending).1 →
        o.fetchPrices = .ok ⟨e, d⟩) := by
  constructor
  · intro att v h
    obtain ⟨k, hk, hval⟩ := fetchPriceLoop_ok_inv att 5 0 v h
    rw [zero_add] at hval
    refine ⟨k, hk, ?_⟩
    cases hatt : att k with
    | netErr => rw [hatt] at hval; simp [attemptValue] at hval
    | payload usd =>
      cases usd with
      | none => rw [hatt] at hval; simp [attemptValue] at hval
      | some s =>
        rw [hatt] at hval
        simp only [attemptValue] at hval
        by_cases hs : s = ""
        · rw [if_pos hs] at hval; simp at hval
        · rw [if_neg hs] at hval
          exact ⟨s, rfl, hs, by simpa using hval.symm⟩
  · intro vr o pending e d hmem
    cases h1 : o.selectLatest with
    | error e1 => simp [updateLatestPrice, h1] at hmem
    | ok u =>
      cases h2 : o.fetchPrices with
      | error e2 => simp [updateLatestPrice, h1, h2] at hmem
      | ok cur =>
        cases h3 : shouldUpdatePrice vr.threshold cur pending.prices.getLast? with
        | error e3 => simp [updateLatestPrice, h1, h2, h3] at hmem
        | ok b =>
          cases b with
          | false => simp [updateLatestPrice, h1, h2, h3] at hmem
          | true =>
            cases h4 : o.insertPrice with
            | error e4 =>
              simp [updateLatestPrice, h1, h2, h3, h4, Ev.insertPrice.injEq] at hmem
              obtain ⟨he, hd⟩ := hmem
              rw [he, hd]
            | ok u2 =>
              simp [updateLatestPrice, h1, h2, h3, h4, Ev.insertPrice.injEq] at hmem
              obtain ⟨he, hd⟩ := hmem
              rw [he, hd]

/-- C8 amended witness: the all-"0" attempt sequence makes the fetch
succeed with the parsed value 0, and the provenance theorem locates the
non-empty source string "0" among the first five attempts. -/
theorem C8_inserted_values_provenance_witness :
    fetchPrice attZero = .ok (some 0) ∧
    (∃ k, k < 5 ∧ ∃ s, attZero k = .payload (some s) ∧ s ≠ "" ∧ some 0 = jsNumber s) := by
  have hjs : jsNumber "0" = some 0 := by
    simp [jsNumber, jsNumberCore, digitsVal, List.takeWhile, List.dropWhile, Char.isDigit]
  have hsucc : attemptValue (attZero 0) = some (some 0) := by
    simp [attZero, attemptValue, hjs]
  have h : fetchPrice attZero = .ok (some 0) :=
    fetchPriceLoop_first_success attZero 5 0 0 (some 0) (by norm_num)
      (fun i h1 h2 => absurd h2 (by omega)) (by simpa using hsucc)
  exact ⟨h, C8_inserted_values_provenance.1 attZero (some 0) h⟩
